import Mathlib

/-!
Verification of the electronic-invoice core of the Inventario-api repository.

The Go sources are shallowly embedded: pure functions become Lean functions,
machine 64-bit words become Nat values reduced modulo 2^64, the shopspring
decimal type becomes ℚ (its Div is modelled with the library division
precision of 16 decimal places, rounding half away from zero, exactly as
shopspring DivRound does), fallible code returns Except/Option, and the
stateful inventory/invoice operations are explicit state-passing functions.
-/

set_option maxRecDepth 10000

/-! ## SHA-384 (model of crypto/sha512.Sum384 from the Go standard library)

Messages are lists of bytes (Nat values below 256); words are Nat values
below 2^64; all word arithmetic is reduced modulo 2^64.
-/

namespace sha512

def wordMod : Nat := 2 ^ 64

def add64 (a b : Nat) : Nat := (a + b) % wordMod

def rotr (x n : Nat) : Nat := ((x >>> n) ||| (x <<< (64 - n))) % wordMod

def ch (x y z : Nat) : Nat := Nat.xor (Nat.land x y) (Nat.land (Nat.xor x (wordMod - 1)) z)

def maj (x y z : Nat) : Nat := Nat.xor (Nat.xor (Nat.land x y) (Nat.land x z)) (Nat.land y z)

def bigSigma0 (x : Nat) : Nat := Nat.xor (Nat.xor (rotr x 28) (rotr x 34)) (rotr x 39)

def bigSigma1 (x : Nat) : Nat := Nat.xor (Nat.xor (rotr x 14) (rotr x 18)) (rotr x 41)

def smallSigma0 (x : Nat) : Nat := Nat.xor (Nat.xor (rotr x 1) (rotr x 8)) (x >>> 7)

def smallSigma1 (x : Nat) : Nat := Nat.xor (Nat.xor (rotr x 19) (rotr x 61)) (x >>> 6)

/-- The 80 SHA-512 round constants (FIPS 180-4): the first 64 bits of the
fractional parts of the cube roots of the first 80 primes. -/
def roundK : List Nat := [
  4794697086780616226, 8158064640168781261, 13096744586834688815, 16840607885511220156,
  4131703408338449720, 6480981068601479193, 10538285296894168987, 12329834152419229976,
  15566598209576043074, 1334009975649890238, 2608012711638119052, 6128411473006802146,
  8268148722764581231, 9286055187155687089, 11230858885718282805, 13951009754708518548,
  16472876342353939154, 17275323862435702243, 1135362057144423861, 2597628984639134821,
  3308224258029322869, 5365058923640841347, 6679025012923562964, 8573033837759648693,
  10970295158949994411, 12119686244451234320, 12683024718118986047, 13788192230050041572,
  14330467153632333762, 15395433587784984357, 489312712824947311, 1452737877330783856,
  2861767655752347644, 3322285676063803686, 5560940570517711597, 5996557281743188959,
  7280758554555802590, 8532644243296465576, 9350256976987008742, 10552545826968843579,
  11727347734174303076, 12113106623233404929, 14000437183269869457, 14369950271660146224,
  15101387698204529176, 15463397548674623760, 17586052441742319658, 1182934255886127544,
  1847814050463011016, 2177327727835720531, 2830643537854262169, 3796741975233480872,
  4115178125766777443, 5681478168544905931, 6601373596472566643, 7507060721942968483,
  8399075790359081724, 8693463985226723168, 9568029438360202098, 10144078919501101548,
  10430055236837252648, 11840083180663258601, 13761210420658862357, 14299343276471374635,
  14566680578165727644, 15097957966210449927, 16922976911328602910, 17689382322260857208,
  500013540394364858, 748580250866718886, 1242879168328830382, 1977374033974150939,
  2944078676154940804, 3659926193048069267, 4368137639120453308, 4836135668995329356,
  5532061633213252278, 6448918945643986474, 6902733635092675308, 7801388544844847127]

/-- Initial hash state for SHA-384 (FIPS 180-4 section 5.3.4). -/
def initH384 : List Nat := [
  14680500436340154072, 7105036623409894663,
  10473403895298186519, 1526699215303891257,
  7436329637833083697, 10282925794625328401,
  15784041429090275239, 5167115440072839076]

/-- Big-endian 16-byte encoding of the bit length, as appended by padding. -/
def lengthBytes (bitLen : Nat) : List Nat :=
  (List.range 16).map (fun i => (bitLen >>> ((15 - i) * 8)) % 256)

/-- FIPS 180-4 padding: append 0x80, zero bytes, and the 128-bit big-endian
message bit length, to a multiple of 128 bytes. -/
def pad (msg : List Nat) : List Nat :=
  let L := msg.length
  let zeros := (128 - ((L + 17) % 128)) % 128
  msg ++ 128 :: List.replicate zeros 0 ++ lengthBytes (L * 8)

/-- Worker for chunks: structural recursion on a fuel argument that bounds
the number of chunks still to produce. -/
def chunksGo (n : Nat) : Nat → List Nat → List (List Nat)
  | 0, _ => []
  | _, [] => []
  | fuel + 1, a :: rest => ((a :: rest).take (n + 1)) :: chunksGo n fuel ((a :: rest).drop (n + 1))

/-- Split a list into chunks of n+1 elements; the caller guarantees the
length is a multiple of n+1, so chunks 7 yields 8-byte groups and
chunks 127 yields 128-byte blocks. -/
def chunks (n : Nat) (l : List Nat) : List (List Nat) := chunksGo n l.length l

/-- Big-endian word from a list of 8 bytes. -/
def bytesToWord (bs : List Nat) : Nat := bs.foldl (fun acc b => acc * 256 + b) 0

/-- Big-endian 8-byte encoding of a 64-bit word. -/
def wordToBytes (w : Nat) : List Nat :=
  (List.range 8).map (fun i => (w >>> ((7 - i) * 8)) % 256)

/-- One step of the message-schedule recurrence, reading the sliding window
of the previous 16 schedule words. -/
def nextScheduleWord (window : List Nat) : Nat :=
  add64 (add64 (smallSigma1 (window.getD 14 0)) (window.getD 9 0))
        (add64 (smallSigma0 (window.getD 1 0)) (window.getD 0 0))

def scheduleExt : Nat → List Nat → List Nat
  | 0, _ => []
  | n + 1, window =>
      let w := nextScheduleWord window
      w :: scheduleExt n (window.tail ++ [w])

/-- The 80-entry message schedule from the 16 words of one block. -/
def schedule (w16 : List Nat) : List Nat := w16 ++ scheduleExt 64 w16

/-- Working variables a..h of the compression function. -/
structure Work where
  a : Nat
  b : Nat
  c : Nat
  d : Nat
  e : Nat
  f : Nat
  g : Nat
  h : Nat

/-- One round of the SHA-512 compression function; kw is (K constant, schedule word). -/
def round (st : Work) (kw : Nat × Nat) : Work :=
  let t1 := add64 st.h (add64 (bigSigma1 st.e) (add64 (ch st.e st.f st.g) (add64 kw.1 kw.2)))
  let t2 := add64 (bigSigma0 st.a) (maj st.a st.b st.c)
  ⟨add64 t1 t2, st.a, st.b, st.c, add64 st.d t1, st.e, st.f, st.g⟩

/-- Process one 128-byte block, updating the 8-word hash state. -/
def processBlock (H : List Nat) (block : List Nat) : List Nat :=
  let ws := schedule ((chunks 7 block).map bytesToWord)
  let st0 : Work := ⟨H.getD 0 0, H.getD 1 0, H.getD 2 0, H.getD 3 0,
                     H.getD 4 0, H.getD 5 0, H.getD 6 0, H.getD 7 0⟩
  let st := (roundK.zip ws).foldl round st0
  [add64 (H.getD 0 0) st.a, add64 (H.getD 1 0) st.b, add64 (H.getD 2 0) st.c,
   add64 (H.getD 3 0) st.d, add64 (H.getD 4 0) st.e, add64 (H.getD 5 0) st.f,
   add64 (H.getD 6 0) st.g, add64 (H.getD 7 0) st.h]

/-- SHA-384 digest of a byte-list message: the first 6 final state words
(48 bytes), as in the Go function sha512.Sum384. -/
def Sum384 (msg : List Nat) : List Nat :=
  let finalH := (chunks 127 (pad msg)).foldl processBlock initH384
  (finalH.take 6).flatMap wordToBytes

end sha512

/-! ## Lowercase hex encoding (model of encoding/hex.EncodeToString) -/

/-- ASCII code of the lowercase hex digit for n < 16. -/
def hexDigit (n : Nat) : Nat := if n < 10 then 48 + n else 87 + n

/-- Lowercase hex encoding of a byte list, as a list of ASCII codes. -/
def hexEncodeAscii (bs : List Nat) : List Nat :=
  bs.flatMap (fun b => [hexDigit (b / 16 % 16), hexDigit (b % 16)])

/-- Lowercase hex encoding of a byte list as a string
(model of hex.EncodeToString). -/
def hexEncodeToString (bs : List Nat) : String :=
  String.mk ((hexEncodeAscii bs).map Char.ofNat)


/-! ## Decimal model (shopspring/decimal, as ℚ)

The shopspring decimal type is arbitrary-precision; Add, Sub, Mul and
comparisons are exact, so they map to the ℚ operations. Round and
StringFixed round half away from zero; Div rounds the quotient to
DivisionPrecision = 16 decimal places, half away from zero.
-/

/-- Round a rational to the nearest integer, half away from zero
(the rounding mode of shopspring Round / StringFixed / DivRound). -/
def roundHalfAway (q : ℚ) : ℤ :=
  if q < 0 then -Int.floor (-q + 1 / 2) else Int.floor (q + 1 / 2)

/-- Model of shopspring Round(places): round half away from zero at the
given number of decimal places. -/
def decRound (places : Nat) (q : ℚ) : ℚ :=
  (roundHalfAway (q * 10 ^ places) : ℚ) / 10 ^ places

/-- Model of shopspring Div: the quotient rounded to
DivisionPrecision = 16 decimal places (callers guard the zero divisor). -/
def decDiv (a b : ℚ) : ℚ :=
  if b = 0 then 0 else decRound 16 (a / b)

/-- Decimal digit character. -/
def digitChar (n : Nat) : Char := Char.ofNat (48 + n % 10)

/-- Decimal digit characters of a natural number (fuel-driven worker). -/
def natDigitsGo : Nat → Nat → List Char
  | 0, _ => []
  | fuel + 1, n => if n < 10 then [digitChar n] else natDigitsGo fuel (n / 10) ++ [digitChar (n % 10)]

/-- Decimal string of a natural number. -/
def natToStr (n : Nat) : String := String.mk (natDigitsGo (n + 1) n)

/-- Model of shopspring StringFixed(2): fixed-point rendering with exactly
two decimal places, point separator, no thousands separators, and a leading
minus sign for negative values. -/
def stringFixed2 (q : ℚ) : String :=
  let cents := roundHalfAway (q * 100)
  let c := cents.natAbs
  let frac := c % 100
  let body := natToStr (c / 100) ++ "." ++ (if frac < 10 then "0" else "") ++ natToStr frac
  if cents < 0 then "-" ++ body else body

/-! ## CUFE calculator
(internal/domain/dian: CufeParams, CufeCalculatorService.Calculate) -/

/-- ASCII bytes of a string. The Go code hashes the UTF-8 bytes of the
concatenation; every field of the CUFE string is ASCII, for which the UTF-8
encoding is the code-point sequence itself. -/
def strBytes (s : String) : List Nat := s.data.map Char.toNat

/-- Whitespace class of the RE2 regular expression backslash-s
(tab, newline, form feed, carriage return, space). -/
def isSpaceByte (c : Char) : Bool :=
  c.toNat = 9 || c.toNat = 10 || c.toNat = 12 || c.toNat = 13 || c.toNat = 32

/-- Model of replacing every whitespace run with the empty string (the Go
code applies TrimSpace and then removes every interior whitespace run,
which together delete exactly the whitespace characters). -/
def removeWhitespace (s : String) : String :=
  String.mk (s.data.filter (fun c => !(isSpaceByte c)))

/-- Model of onlyDigits: keep only the characters 0-9. -/
def onlyDigits (s : String) : String :=
  String.mk (s.data.filter (fun c => 48 ≤ c.toNat && c.toNat ≤ 57))

/-- DIAN tax-code constants for the CUFE string. -/
def CodImpIVA : String := "01"

def CodImpImpoconsumo : String := "04"

def CodImpICA : String := "03"

/-- CufeParams: the CUFE inputs in the strict DIAN order. -/
structure CufeParams where
  NumFac : String
  FecFac : String
  ValFac : ℚ
  ValImp_01 : ℚ
  ValImp_04 : ℚ
  ValImp_03 : ℚ
  ValPag : ℚ
  NitOfe : String
  DocAdq : String
  ClTec : String
  TipoAmb : String

/-- formatAmount: no thousands separator, point decimal, 2 places. -/
def formatAmount (d : ℚ) : String := stringFixed2 (decRound 2 d)

namespace CufeCalculatorService

/-- The concatenation hashed by Calculate, given the already-validated
pieces. -/
def cufeChain (numFac fecFac : String) (valFac v01 v04 v03 valPag : ℚ)
    (nitOfe docAdq clTec tipoAmb : String) : String :=
  numFac ++ fecFac ++ formatAmount valFac ++
  CodImpIVA ++ formatAmount v01 ++
  CodImpImpoconsumo ++ formatAmount v04 ++
  CodImpICA ++ formatAmount v03 ++
  formatAmount valPag ++ nitOfe ++ docAdq ++ clTec ++ tipoAmb

/-- Model of CufeCalculatorService.Calculate: validate the required fields,
concatenate in the strict DIAN order with no separators, hash with SHA-384
and return the lowercase hex digest. -/
def Calculate (p : CufeParams) : Except String String :=
  let numFac := removeWhitespace p.NumFac
  if numFac = "" then .error "dian: NumFac es obligatorio" else
  if p.FecFac = "" then .error "dian: FecFac es obligatorio (YYYY-MM-DD)" else
  let nitOfe := onlyDigits p.NitOfe
  let docAdq := onlyDigits p.DocAdq
  if nitOfe = "" then .error "dian: NitOfe es obligatorio para el CUFE" else
  if docAdq = "" then .error "dian: DocAdq es obligatorio para el CUFE" else
  if p.ClTec = "" then .error "dian: ClTec es obligatoria para el CUFE" else
  let tipoAmb := if p.TipoAmb = "" then "1" else p.TipoAmb
  let cadena := cufeChain numFac p.FecFac p.ValFac p.ValImp_01 p.ValImp_04 p.ValImp_03
    p.ValPag nitOfe docAdq p.ClTec tipoAmb
  .ok (hexEncodeToString (sha512.Sum384 (strBytes cadena)))

end CufeCalculatorService

/-! ## Domain entities (internal/domain/entity)

Only the fields the verified claims read are modelled. Time values carry
either a Nat timestamp (CreatedAt, UpdatedAt) or, for the invoice date,
the YYYY-MM-DD rendering produced by Format, as a string. The Go field
named Prefix is modelled as prefixStr, and the movement field named Type
as MovType. -/

/-- Domain sentinel errors (internal/domain/errors). -/
inductive DomainErr
  | ErrInvalidInput
  | ErrNotFound
  | ErrForbidden
  | ErrInsufficientStock
  | ErrDuplicate
deriving DecidableEq, Repr

def MovementTypeIN : String := "IN"

def MovementTypeOUT : String := "OUT"

def DIANStatusDraft : String := "DRAFT"

def DIANStatusSigned : String := "SIGNED"

def DIANStatusExitoso : String := "EXITOSO"

def DIANStatusRechazado : String := "RECHAZADO"

def DIANStatusErrorGeneration : String := "ERROR_GENERATION"

structure Product where
  ID : String
  CompanyID : String
  SKU : String
  Name : String
  Price : ℚ
  Cost : ℚ
  TaxRate : ℚ
  UnitMeasure : String
deriving DecidableEq, Repr

structure Stock where
  ProductID : String
  WarehouseID : String
  Quantity : ℚ
  UpdatedAt : Nat
deriving DecidableEq, Repr

structure InventoryMovement where
  TransactionID : String
  ProductID : String
  WarehouseID : String
  MovType : String
  Quantity : ℚ
  UnitCost : ℚ
  TotalCost : ℚ
  Date : Nat
  CreatedAt : Nat
  CreatedBy : String
deriving DecidableEq, Repr

structure Company where
  ID : String
  NIT : String
  Name : String
  Address : String
deriving DecidableEq, Repr

structure Customer where
  ID : String
  CompanyID : String
  Name : String
  TaxID : String
deriving DecidableEq, Repr

structure Warehouse where
  ID : String
  CompanyID : String
deriving DecidableEq, Repr

structure Invoice where
  ID : String
  CompanyID : String
  CustomerID : String
  prefixStr : String
  Number : String
  Date : String
  NetTotal : ℚ
  TaxTotal : ℚ
  GrandTotal : ℚ
  DIAN_Status : String
  CUFE : String
  UUID : String
  XMLSigned : String
  QRData : String
  TrackID : String
  DIANErrors : String
  CreatedAt : Nat
  UpdatedAt : Nat
deriving DecidableEq, Repr

structure InvoiceDetail where
  ID : String
  InvoiceID : String
  ProductID : String
  Quantity : ℚ
  UnitPrice : ℚ
  TaxRate : ℚ
  Subtotal : ℚ
deriving DecidableEq, Repr

/-! ## Inventory engine (internal/application/inventory, part_030 and part_008) -/

namespace inventory

/-- CostCalculator: weighted-average cost with the divide-by-zero guard
(the division is the shopspring Div, 16-place rounding). -/
def CostCalculator (stockActual costoActual cantEntrada costoEntrada : ℚ) : ℚ :=
  let sum := stockActual + cantEntrada
  if sum ≤ 0 then 0
  else decDiv (stockActual * costoActual + cantEntrada * costoEntrada) sum

/-- The slice of transactional state a movement touches: the locked stock
row, the product row (for its cost) and the append-only movements table. -/
structure TxState where
  stock : Stock
  product : Product
  movements : List InventoryMovement
deriving DecidableEq, Repr

/-- doIN: lock row, CostCalculator, update product cost, add the quantity
to the stock row, append one IN movement. -/
def doIN (st : TxState) (quantity unitCost : ℚ) (userID : String) (now : Nat)
    (txID : String) : TxState :=
  let newQty := st.stock.Quantity + quantity
  let newCost := CostCalculator st.stock.Quantity st.product.Cost quantity unitCost
  { stock := { st.stock with Quantity := newQty, UpdatedAt := now },
    product := { st.product with Cost := newCost },
    movements := st.movements ++ [{
      TransactionID := txID,
      ProductID := st.stock.ProductID,
      WarehouseID := st.stock.WarehouseID,
      MovType := MovementTypeIN,
      Quantity := quantity,
      UnitCost := unitCost,
      TotalCost := quantity * unitCost,
      Date := now, CreatedAt := now, CreatedBy := userID }] }

/-- doOUT: lock row, require stock at or above the requested quantity,
subtract, append one OUT movement at the current product cost. -/
def doOUT (st : TxState) (quantity : ℚ) (userID : String) (now : Nat)
    (txID : String) : Except DomainErr TxState :=
  if st.stock.Quantity < quantity then .error .ErrInsufficientStock
  else .ok
    { stock := { st.stock with Quantity := st.stock.Quantity - quantity, UpdatedAt := now },
      product := st.product,
      movements := st.movements ++ [{
        TransactionID := txID,
        ProductID := st.stock.ProductID,
        WarehouseID := st.stock.WarehouseID,
        MovType := MovementTypeOUT,
        Quantity := -quantity,
        UnitCost := st.product.Cost,
        TotalCost := -quantity * st.product.Cost,
        Date := now, CreatedAt := now, CreatedBy := userID }] }

/-- RegisterOUTInTx: the OUT exposed to the invoice pipeline inside the
billing transaction; the transaction id is the invoice id. -/
def RegisterOUTInTx (st : TxState) (productID warehouseID userID : String)
    (quantity : ℚ) (now : Nat) (transactionID : String) : Except DomainErr TxState :=
  if st.stock.Quantity < quantity then .error .ErrInsufficientStock
  else .ok
    { stock := { st.stock with Quantity := st.stock.Quantity - quantity, UpdatedAt := now },
      product := st.product,
      movements := st.movements ++ [{
        TransactionID := transactionID,
        ProductID := productID,
        WarehouseID := warehouseID,
        MovType := MovementTypeOUT,
        Quantity := -quantity,
        UnitCost := st.product.Cost,
        TotalCost := -quantity * st.product.Cost,
        Date := now, CreatedAt := now, CreatedBy := userID }] }

end inventory

/-! ## String helpers (strings.TrimSpace, strings.ToLower) -/

/-- Model of strings.TrimSpace: strip leading and trailing whitespace.
All values the program compares after trimming are ASCII. -/
def trimSpace (s : String) : String :=
  String.mk (((s.data.dropWhile isSpaceByte).reverse.dropWhile isSpaceByte).reverse)

/-- Model of strings.ToLower restricted to ASCII letters, which is all the
program compares after lowering. -/
def toLower (s : String) : String :=
  String.mk (s.data.map (fun c => if 65 ≤ c.toNat ∧ c.toNat ≤ 90 then Char.ofNat (c.toNat + 32) else c))

/-! ## CreateInvoice (internal/application/billing/create_invoice.go)

The repository lookups made by the use case are supplied as an environment
record; each field holds exactly the value the corresponding repository
call returns, including the discarded error component of HasActiveModule. -/

namespace billing

structure CreateInvoiceItem where
  ProductID : String
  Quantity : ℚ
  UnitPrice : ℚ
deriving DecidableEq, Repr

structure CreateInvoiceRequest where
  CustomerID : String
  WarehouseID : String
  prefixStr : String
  Number : String
  Items : List CreateInvoiceItem
deriving DecidableEq, Repr

/-- What the repositories answer during a CreateInvoice call. The module
lookup result carries the (value, error) pair HasActiveModule returns; the
use case reads only the value. -/
structure CreateInvoiceEnv where
  customer : Option Customer
  companyFound : Bool
  moduleLookup : Bool × Option String
  warehouse : Option Warehouse
  productByID : String → Option Product
  stockFor : String → String → Except DomainErr Stock

/-- The postgres HasActiveModule adapter returns false together with the
error whenever the query fails, so a failed lookup carries value false. -/
def hasActiveModuleResult (queryOutcome : Except String Bool) : Bool × Option String :=
  match queryOutcome with
  | .error e => (false, some e)
  | .ok active => (active, none)

/-- toRate normalization applied when computing totals and writing lines:
values above 1 are divided by 100 (shopspring Div). -/
def toRate (rate : ℚ) : ℚ :=
  if 1 < rate then decDiv rate 100 else rate

/-- Per-item pre-transaction validation: quantity positive, product exists
and belongs to the company, unit price non-negative and defaulted to the
product price when zero. Returns each item (with the defaulted price)
paired with its product, the pair playing the role of productsByID. -/
def validateItems (productByID : String → Option Product) (companyID : String) :
    List CreateInvoiceItem → Except DomainErr (List (CreateInvoiceItem × Product))
  | [] => .ok []
  | item :: rest =>
    if item.ProductID = "" ∨ ¬(0 < item.Quantity) then .error .ErrInvalidInput
    else match productByID item.ProductID with
      | none => .error .ErrNotFound
      | some product =>
        if product.CompanyID ≠ companyID then .error .ErrForbidden
        else if item.UnitPrice < 0 then .error .ErrInvalidInput
        else
          let item2 := if item.UnitPrice = 0 then { item with UnitPrice := product.Price } else item
          match validateItems productByID companyID rest with
          | .error e => .error e
          | .ok pairs => .ok ((item2, product) :: pairs)

/-- Functional update of the stock table view after an OUT upsert. -/
def updStocks (stocks : String → String → Except DomainErr Stock)
    (pid wid : String) (s : Stock) : String → String → Except DomainErr Stock :=
  fun p w => if p = pid ∧ w = wid then .ok s else stocks p w

/-- The in-transaction OUT loop: one RegisterOUTInTx call per item, with
the invoice id as transaction id; any error aborts (rolls back). -/
def outLoop (warehouseID userID : String) (now : Nat) (invoiceID : String) :
    List (CreateInvoiceItem × Product) →
    (String → String → Except DomainErr Stock) → List InventoryMovement →
    Except DomainErr ((String → String → Except DomainErr Stock) × List InventoryMovement)
  | [], stocks, movs => .ok (stocks, movs)
  | (item, product) :: rest, stocks, movs =>
    match stocks item.ProductID warehouseID with
    | .error e => .error e
    | .ok stock =>
      match inventory.RegisterOUTInTx ⟨stock, product, movs⟩ item.ProductID warehouseID
          userID item.Quantity now invoiceID with
      | .error e => .error e
      | .ok st2 =>
        outLoop warehouseID userID now invoiceID rest
          (updStocks stocks item.ProductID warehouseID st2.stock) st2.movements

/-- Result of a successful CreateInvoice: the DRAFT invoice, its lines and
the post-transaction inventory state. -/
structure CreateInvoiceResult where
  invoice : Invoice
  details : List InvoiceDetail
  movements : List InventoryMovement
  stocks : String → String → Except DomainErr Stock

/-- Model of CreateInvoiceUseCase.CreateInvoice: pre-transaction
validations, conditional inventory OUTs, totals, DRAFT persistence. -/
def CreateInvoice (env : CreateInvoiceEnv) (companyID userID : String)
    (inp : CreateInvoiceRequest) (now : Nat) (invoiceID : String) :
    Except DomainErr CreateInvoiceResult :=
  if inp.CustomerID = "" ∨ inp.Items = [] ∨ inp.prefixStr = "" then .error .ErrInvalidInput
  else match env.customer with
    | none => .error .ErrNotFound
    | some customer =>
      if customer.CompanyID ≠ companyID then .error .ErrForbidden
      else if ¬env.companyFound then .error .ErrNotFound
      else
        -- the error component of the HasActiveModule result is discarded
        let hasInventory := env.moduleLookup.1
        let warehouseGate : Except DomainErr Unit :=
          if hasInventory then
            if inp.WarehouseID = "" then .error .ErrInvalidInput
            else match env.warehouse with
              | none => .error .ErrNotFound
              | some wh => if wh.CompanyID ≠ companyID then .error .ErrNotFound else .ok ()
          else .ok ()
        match warehouseGate with
        | .error e => .error e
        | .ok _ =>
          match validateItems env.productByID companyID inp.Items with
          | .error e => .error e
          | .ok pairs =>
            let invLoop : Except DomainErr ((String → String → Except DomainErr Stock) × List InventoryMovement) :=
              if hasInventory then outLoop inp.WarehouseID userID now invoiceID pairs env.stockFor []
              else .ok (env.stockFor, [])
            match invLoop with
            | .error e => .error e
            | .ok (stocks2, movs) =>
              let netTotal := (pairs.map (fun ip => ip.1.Quantity * ip.1.UnitPrice)).sum
              let taxTotal := (pairs.map (fun ip =>
                ip.1.Quantity * ip.1.UnitPrice * toRate ip.2.TaxRate)).sum
              let grandTotal := netTotal + taxTotal
              let number := if inp.Number = "" then inp.prefixStr ++ "-" ++ natToStr now else inp.Number
              let inv : Invoice := {
                ID := invoiceID, CompanyID := companyID, CustomerID := inp.CustomerID,
                prefixStr := inp.prefixStr, Number := number, Date := "",
                NetTotal := netTotal, TaxTotal := taxTotal, GrandTotal := grandTotal,
                DIAN_Status := DIANStatusDraft,
                CUFE := "", UUID := "", XMLSigned := "", QRData := "", TrackID := "",
                DIANErrors := "", CreatedAt := now, UpdatedAt := now }
              let details := pairs.map (fun ip => {
                ID := "", InvoiceID := invoiceID, ProductID := ip.1.ProductID,
                Quantity := ip.1.Quantity, UnitPrice := ip.1.UnitPrice,
                TaxRate := toRate ip.2.TaxRate,
                Subtotal := ip.1.Quantity * ip.1.UnitPrice : InvoiceDetail })
              .ok { invoice := inv, details := details, movements := movs, stocks := stocks2 }

end billing

/-! ## Invoice repository Update
(internal/infrastructure/postgres/invoice_repository.go)

The stored row is modelled column-for-column for the columns the UPDATE
statement touches; nullable text columns are Option String. -/

namespace postgres

/-- The DIAN-lifecycle columns of one invoices row. -/
structure InvoiceRow where
  cufe : Option String
  uuid : Option String
  xml_signed : Option String
  dian_status : String
  qr_data : Option String
  track_id_dian : Option String
  dian_errors : Option String
  updated_at : Nat
deriving DecidableEq, Repr

/-- nullIfEmpty: empty strings are bound as SQL NULL. -/
def nullIfEmpty (s : String) : Option String := if s = "" then none else some s

/-- SQL COALESCE of the bound parameter with the stored column. -/
def coalesce (param old : Option String) : Option String :=
  match param with
  | some v => some v
  | none => old

/-- Model of InvoiceRepo.Update: the UPDATE statement applied to a stored
row. cufe, uuid, qr_data, track_id_dian and dian_errors go through
COALESCE; xml_signed, dian_status and updated_at are assigned directly. -/
def InvoiceRepoUpdate (row : InvoiceRow) (invoice : Invoice) : InvoiceRow :=
  { cufe := coalesce (nullIfEmpty invoice.CUFE) row.cufe,
    uuid := coalesce (nullIfEmpty invoice.UUID) row.uuid,
    xml_signed := nullIfEmpty invoice.XMLSigned,
    dian_status := invoice.DIAN_Status,
    qr_data := coalesce (nullIfEmpty invoice.QRData) row.qr_data,
    track_id_dian := coalesce (nullIfEmpty invoice.TrackID) row.track_id_dian,
    dian_errors := coalesce (nullIfEmpty invoice.DIANErrors) row.dian_errors,
    updated_at := invoice.UpdatedAt }

end postgres

/-! ## NIT verification digit (pkg/dian, part_043) -/

namespace dian

/-- The module-11 weights applied to the first 9 NIT digits, left to right. -/
def nitWeights : List Nat := [41, 37, 29, 23, 19, 17, 13, 7, 3]

/-- extractDigits: the digit characters of the string, in order. -/
def extractDigits (s : String) : List Char :=
  s.data.filter (fun c => 48 ≤ c.toNat && c.toNat ≤ 57)

/-- The weighted module-11 sum over the first 9 digits. -/
def nitWeightedSum (base : List Char) : Nat :=
  ((base.zip nitWeights).map (fun dw => (dw.1.toNat - 48) * dw.2)).foldl (· + ·) 0

/-- The expected check digit character for a remainder. -/
def expectedDigit (remainder : Nat) : Char :=
  if remainder = 0 ∨ remainder = 1 then Char.ofNat (48 + remainder)
  else Char.ofNat (48 + (11 - remainder))

/-- Model of ValidateNITVerificationDigit. -/
def ValidateNITVerificationDigit (taxID : String) : Except String Unit :=
  let digits := extractDigits taxID
  if digits.length < 9 then .error "dian: NIT debe tener al menos 9 digitos"
  else
    let base := digits.take 9
    let expected := expectedDigit (nitWeightedSum base % 11)
    if digits.length = 10 then
      if digits.getD 9 expected ≠ expected then
        .error "dian: digito de verificacion del NIT invalido"
      else .ok ()
    else .error "dian: NIT de persona juridica debe incluir digito de verificacion"

/-- Model of ComputeNITVerificationDigit. -/
def ComputeNITVerificationDigit (taxID : String) : Except String Char :=
  let digits := extractDigits taxID
  if digits.length < 9 then .error "dian: se requieren al menos 9 digitos"
  else .ok (expectedDigit (nitWeightedSum (digits.take 9) % 11))

end dian

/-! ## SOAP client (internal/infrastructure/dian/soap_client.go)

The HTTP transport is abstracted as an outcome value: either a transport
failure with a message, or a raw response body together with the result of
xml.Unmarshal on it (none when the body does not parse). -/

namespace dian

def AppEnvTest : String := "test"

def AppEnvProd : String := "prod"

def AppEnvDev : String := "dev"

def soapURLTest : String := "https://vpfe-hab.dian.gov.co/WcfDianCustomerServices.svc"

def soapURLProd : String := "https://vpfe.dian.gov.co/WcfDianCustomerServices.svc"

def soapActionBase : String := "http://tempuri.org/IWcfDianCustomerServices/"

/-- The WS result payload common to SendBillAsync and SendTestSetAsync. -/
structure SendBillAsyncResult where
  HasErrors : Bool
  ErrorMessageList : List String
  ZipKey : String
deriving DecidableEq, Repr

/-- The parsed SOAP response body: optional operation responses and an
optional protocol fault (faultcode, faultstring). -/
structure SoapResponseBody where
  SendBillResponse : Option SendBillAsyncResult
  SendTestSetResponse : Option SendBillAsyncResult
  Fault : Option (String × String)
deriving DecidableEq, Repr

/-- The result handed back to the orchestrator. -/
structure SubmitResult where
  TrackID : String
  Accepted : Bool
  Errors : String
deriving DecidableEq, Repr

/-- The two SOAP operations the client can build. -/
inductive SoapOp
  | SendBillAsync
  | SendTestSetAsync
deriving DecidableEq, Repr

/-- Model of buildRequest: URL, SOAPAction and operation per environment;
any environment other than test or prod is an error. -/
def buildRequest (env : String) : Except String (String × String × SoapOp) :=
  if env = AppEnvProd then
    .ok (soapURLProd, soapActionBase ++ "SendBillAsync", SoapOp.SendBillAsync)
  else if env = AppEnvTest then
    .ok (soapURLTest, soapActionBase ++ "SendTestSetAsync", SoapOp.SendTestSetAsync)
  else .error "soap: entorno desconocido"

/-- Model of parseResponse: every branch returns a SubmitResult with a nil
error; an unparsable body, a protocol fault and a missing operation result
all map to Accepted = false with a descriptive message. -/
def parseResponse (parsed : Option SoapResponseBody) (rawBody env : String) : SubmitResult :=
  match parsed with
  | none =>
    { TrackID := "", Accepted := false,
      Errors := "no se pudo parsear respuesta SOAP: " ++ rawBody }
  | some body =>
    match body.Fault with
    | some fault =>
      { TrackID := "", Accepted := false,
        Errors := "SOAP Fault [" ++ fault.1 ++ "]: " ++ fault.2 }
    | none =>
      let result : Option SendBillAsyncResult :=
        if env = AppEnvProd then body.SendBillResponse
        else if env = AppEnvTest then body.SendTestSetResponse
        else none
      match result with
      | none =>
        { TrackID := "", Accepted := false,
          Errors := "respuesta SOAP vacia o inesperada: " ++ rawBody }
      | some r =>
        { TrackID := r.ZipKey, Accepted := !r.HasErrors,
          Errors := String.intercalate "; " r.ErrorMessageList }

/-- Outcome of the HTTP POST: a transport-level failure (network error,
cancellation, read failure) or a body with its parse result. -/
inductive HttpOutcome
  | failure (msg : String)
  | response (rawBody : String) (parsed : Option SoapResponseBody)
deriving DecidableEq, Repr

/-- Model of SOAPDIANClient.SubmitZip: build the request for the
environment, perform the POST, parse the response. -/
def SubmitZip (env : String) (outcome : HttpOutcome) : Except String SubmitResult :=
  match buildRequest env with
  | .error e => .error e
  | .ok _ =>
    match outcome with
    | .failure msg => .error ("soap: llamada HTTP fallida: " ++ msg)
    | .response rawBody parsed => .ok (parseResponse parsed rawBody env)

end dian

/-! ## DIAN orchestrator, conditional submit step
(internal/application/billing/dian_orchestrator.go, steps 6-7) -/

namespace billing

/-- What the orchestrator persists after the conditional submit step:
the terminal dian_status and, on the non-markError path, the tracking id
and DIAN errors; remoteCalled records whether SubmitZip ran. -/
structure SubmitStepResult where
  finalStatus : String
  trackID : String
  dianErrors : String
  remoteCalled : Bool
deriving DecidableEq, Repr

/-- Model of the switch on the app environment in DIANOrchestrator.process:
dev (or empty) simulates, test and prod call SubmitZip through the
submitter, anything else is a configuration error. The submitter argument
is none when no DIANSubmitter was injected; otherwise it gives the HTTP
outcome SubmitZip will observe. -/
def processSubmitStep (cfgAppEnv : String) (submitter : Option dian.HttpOutcome) :
    SubmitStepResult :=
  let appEnv := toLower (trimSpace cfgAppEnv)
  if appEnv = dian.AppEnvDev ∨ appEnv = "" then
    { finalStatus := DIANStatusExitoso, trackID := "MOCK-TRACK-123",
      dianErrors := "", remoteCalled := false }
  else if appEnv = dian.AppEnvTest ∨ appEnv = dian.AppEnvProd then
    match submitter with
    | none =>
      { finalStatus := DIANStatusErrorGeneration, trackID := "", dianErrors := "",
        remoteCalled := false }
    | some outcome =>
      match dian.SubmitZip appEnv outcome with
      | .error _ =>
        { finalStatus := DIANStatusErrorGeneration, trackID := "", dianErrors := "",
          remoteCalled := true }
      | .ok result =>
        if result.Accepted then
          { finalStatus := DIANStatusExitoso, trackID := result.TrackID,
            dianErrors := result.Errors, remoteCalled := true }
        else
          { finalStatus := DIANStatusRechazado, trackID := result.TrackID,
            dianErrors := result.Errors, remoteCalled := true }
  else
    { finalStatus := DIANStatusErrorGeneration, trackID := "", dianErrors := "",
      remoteCalled := false }

end billing

/-! ## CUFE from invoice (internal/infrastructure/dian/cufe_builder.go) -/

namespace dian

/-- CufeContext: invoice, parties and resolution data for the CUFE. -/
structure CufeContext where
  Invoice : Invoice
  Company : Company
  Customer : Customer
  ClaveTecnica : String
  TipoAmbiente : String

/-- Model of CalculateCufeFromInvoice: build CufeParams from the context,
run Calculate, and assign the digest to both CUFE and UUID of the invoice
(returned functionally). -/
def CalculateCufeFromInvoice (ctx : CufeContext) : Except String (String × Invoice) :=
  let tipoAmb := if ctx.TipoAmbiente = "" then "1" else ctx.TipoAmbiente
  let params : CufeParams := {
    NumFac := trimSpace ctx.Invoice.prefixStr ++ trimSpace ctx.Invoice.Number,
    FecFac := ctx.Invoice.Date,
    ValFac := ctx.Invoice.NetTotal,
    ValImp_01 := ctx.Invoice.TaxTotal,
    ValImp_04 := 0,
    ValImp_03 := 0,
    ValPag := ctx.Invoice.GrandTotal,
    NitOfe := onlyDigits ctx.Company.NIT,
    DocAdq := onlyDigits ctx.Customer.TaxID,
    ClTec := ctx.ClaveTecnica,
    TipoAmb := tipoAmb }
  match CufeCalculatorService.Calculate params with
  | .error e => .error e
  | .ok cufe => .ok (cufe, { ctx.Invoice with CUFE := cufe, UUID := cufe })

/-! ## UBL 2.1 XML builder and signature injection
(part_021 writeUBLExtensions / Build; part_020 injectSignature)

The token stream the Go encoder emits, and the element tree etree reads
back from those bytes, are modelled directly as one element tree: an
element has its namespace prefix, its local name and its child elements.
Character data and attributes play no role in the verified structural
claims and are not carried. -/

/-- An XML element: namespace prefix, local name, child elements. -/
structure XmlElem where
  space : String
  tag : String
  children : List XmlElem

/-- Resolution data carried into the first UBL extension. -/
structure BillingResolutionData where
  Number : String
  prefixStr : String
  RangeFrom : Int
  RangeTo : Int
  DateFrom : String
  DateTo : String
deriving DecidableEq, Repr

/-- The sts:DianExtensions subtree written when a resolution is present. -/
def dianExtensionsElem : XmlElem :=
  ⟨"sts", "DianExtensions",
    [⟨"sts", "InvoiceControl",
      [⟨"sts", "InvoiceAuthorization", []⟩,
       ⟨"sts", "AuthorizationPeriod", [⟨"sts", "StartDate", []⟩, ⟨"sts", "EndDate", []⟩]⟩,
       ⟨"sts", "AuthorizedInvoices",
         [⟨"sts", "Prefix", []⟩, ⟨"sts", "From", []⟩, ⟨"sts", "To", []⟩]⟩]⟩]⟩

/-- writeUBLExtensions: always two ext:UBLExtension blocks, the first with
the DIAN content (empty when no resolution), the second an empty
ExtensionContent reserved for the signature. -/
def writeUBLExtensions (resolution : Option BillingResolutionData) : XmlElem :=
  ⟨"ext", "UBLExtensions",
    [⟨"ext", "UBLExtension",
      [⟨"ext", "ExtensionContent",
        match resolution with
        | some _ => [dianExtensionsElem]
        | none => []⟩]⟩,
     ⟨"ext", "UBLExtension", [⟨"ext", "ExtensionContent", []⟩]⟩]⟩

/-- One line of the invoice for the XML builder. -/
structure InvoiceLineForXML where
  ProductName : String
  ProductCode : String
  UnitCode : String
  Quantity : ℚ
  UnitPrice : ℚ
  TaxRate : ℚ
  Subtotal : ℚ
deriving DecidableEq, Repr

/-- The build context of XMLBuilderService.Build. -/
structure InvoiceBuildContext where
  Invoice : Invoice
  Company : Company
  Customer : Customer
  Details : List InvoiceLineForXML
  Resolution : Option BillingResolutionData
  CustomerIdentificationTypeCode : String
  CompanyIdentificationTypeCode : String

/-- The top-level children Build writes after the extensions: the cbc
header fields, the party blocks, payment, totals and one InvoiceLine per
detail. Their inner structure is irrelevant to the verified claims and the
subtrees below the listed elements are not carried. -/
def buildBodyChildren (ctx : InvoiceBuildContext) : List XmlElem :=
  [⟨"cbc", "UBLVersionID", []⟩, ⟨"cbc", "CustomizationID", []⟩,
   ⟨"cbc", "ProfileID", []⟩, ⟨"cbc", "ID", []⟩] ++
  (if ctx.Invoice.UUID ≠ "" ∨ ctx.Invoice.CUFE ≠ "" then [⟨"cbc", "UUID", []⟩] else []) ++
  [⟨"cbc", "IssueDate", []⟩, ⟨"cbc", "IssueTime", []⟩,
   ⟨"cbc", "DocumentCurrencyCode", []⟩, ⟨"cbc", "LineCountNumeric", []⟩,
   ⟨"cac", "AccountingSupplierParty", []⟩, ⟨"cac", "AccountingCustomerParty", []⟩,
   ⟨"cac", "PaymentMeans", []⟩, ⟨"cac", "TaxTotal", []⟩,
   ⟨"cac", "LegalMonetaryTotal", []⟩] ++
  ctx.Details.map (fun _ => ⟨"cac", "InvoiceLine", []⟩)

/-- Model of XMLBuilderService.Build: the Invoice root whose first child is
always the ext:UBLExtensions container. -/
def Build (ctx : InvoiceBuildContext) : XmlElem :=
  ⟨"", "Invoice", writeUBLExtensions ctx.Resolution :: buildBodyChildren ctx⟩

/-- The root element of the ds:Signature template built by
buildFullSignature (SignedInfo, SignatureValue, KeyInfo, Object). -/
def signatureElem : XmlElem :=
  ⟨"ds", "Signature",
    [⟨"ds", "SignedInfo", []⟩, ⟨"ds", "SignatureValue", []⟩,
     ⟨"ds", "KeyInfo", []⟩, ⟨"ds", "Object", []⟩]⟩

/-- Append a child to an element (etree AddChild). -/
def addChild (e child : XmlElem) : XmlElem := { e with children := e.children ++ [child] }

/-- Inner loop of injectSignature: walk the ExtensionContent children of
one UBLExtension, threading the running count; inject into the second one
found overall. Returns the updated count, the rebuilt children and whether
the injection point was found here. -/
def injectInExtContents (sig : XmlElem) : Nat → List XmlElem → Nat × List XmlElem × Bool
  | cnt, [] => (cnt, [], false)
  | cnt, ec :: rest =>
    if ec.tag = "ExtensionContent" then
      if cnt + 1 = 2 then (cnt + 1, addChild ec sig :: rest, true)
      else
        let r := injectInExtContents sig (cnt + 1) rest
        (r.1, ec :: r.2.1, r.2.2)
    else
      let r := injectInExtContents sig cnt rest
      (r.1, ec :: r.2.1, r.2.2)

/-- Outer loop of injectSignature: walk the UBLExtension children of the
UBLExtensions container, stopping at the extension where the second
ExtensionContent was found. -/
def injectInUBLExts (sig : XmlElem) : Nat → List XmlElem → List XmlElem × Bool
  | _, [] => ([], false)
  | cnt, ext :: rest =>
    if ext.tag = "UBLExtension" then
      let r := injectInExtContents sig cnt ext.children
      if r.2.2 then ({ ext with children := r.2.1 } :: rest, true)
      else
        let r2 := injectInUBLExts sig r.1 rest
        (ext :: r2.1, r2.2)
    else
      let r2 := injectInUBLExts sig cnt rest
      (ext :: r2.1, r2.2)

/-- Locate the (first) UBLExtensions child of the root and inject into it;
error when the container or the second ExtensionContent is missing. -/
def injectInRootChildren (sig : XmlElem) : List XmlElem → Except String (List XmlElem)
  | [] => .error "dian: no se encontro ext:UBLExtensions"
  | child :: rest =>
    if child.tag = "UBLExtensions" then
      let r := injectInUBLExts sig 0 child.children
      if r.2 then .ok ({ child with children := r.1 } :: rest)
      else .error "dian: no se encontro el segundo ext:ExtensionContent para inyectar la firma"
    else
      match injectInRootChildren sig rest with
      | .error e => .error e
      | .ok cs => .ok (child :: cs)

/-- Model of DigitalSignatureService.injectSignature: add the ds:Signature
root as a child of the second ext:ExtensionContent, located by positional
count. -/
def injectSignature (root sig : XmlElem) : Except String XmlElem :=
  match injectInRootChildren sig root.children with
  | .error e => .error e
  | .ok cs => .ok { root with children := cs }

/-- Model of the build-and-sign path of the orchestrator (steps 2-5):
compute the CUFE (writing CUFE and UUID), build the XML, inject the
signature, and mark the invoice SIGNED. The cryptographic byte-level work
(canonicalization, digests, RSA) does not alter the element structure and
is not carried. -/
def buildAndSign (ctx : CufeContext) (details : List InvoiceLineForXML)
    (resolution : Option BillingResolutionData) (custIdentCode : String) :
    Except String (Invoice × XmlElem) :=
  match CalculateCufeFromInvoice ctx with
  | .error e => .error e
  | .ok (_, inv2) =>
    let xmlTree := Build {
      Invoice := inv2, Company := ctx.Company, Customer := ctx.Customer,
      Details := details, Resolution := resolution,
      CustomerIdentificationTypeCode := custIdentCode,
      CompanyIdentificationTypeCode := "31" }
    match injectSignature xmlTree signatureElem with
    | .error e => .error e
    | .ok signedTree =>
      .ok ({ inv2 with DIAN_Status := DIANStatusSigned }, signedTree)

end dian

/-! ## Theorems -/

/-- The reference CUFE inputs of the specification's scenario 1. -/
def cufeReferenceParams : CufeParams :=
  { NumFac := "SETP990000000", FecFac := "2023-11-29",
    ValFac := 1000000, ValImp_01 := 190000, ValImp_04 := 0, ValImp_03 := 0,
    ValPag := 1190000, NitOfe := "900123456", DocAdq := "800987654",
    ClTec := "fc8eac422eba16e22ffd8c6f94b3f40a6e38162c354673d3a603956897890cd",
    TipoAmb := "2" }

/-- The expected reference CUFE digest. -/
def cufeReferenceDigest : String :=
  "f5693bff411776a0c3536bba5df32491df2ffc101a8ff4810cdfc04368b8a9286dc0d5c578fa2344e119d118947a0c4c"

/-- C1: on the reference inputs (NumFac SETP990000000, FecFac 2023-11-29,
ValFac 1000000.00, IVA 190000.00, INC 0.00, ICA 0.00, ValPag 1190000.00,
emitter 900123456, receiver 800987654, the given technical key, environment
2) Calculate returns exactly the 96-character lowercase-hex SHA-384 value
f5693bff...7a0c4c, and the hashed string is the concatenation of the fields
in the strict order NumFac, FecFac, ValFac, 01, ValIVA, 04, ValINC, 03,
ValICA, ValPag, NitEmisor, DocCliente, ClaveTecnica, TipoAmb with no
separators and every monetary value rendered with exactly two decimals. -/
theorem cufe_reference_vector_c1 :
    CufeCalculatorService.Calculate cufeReferenceParams = .ok cufeReferenceDigest ∧
    CufeCalculatorService.Calculate cufeReferenceParams =
      .ok (hexEncodeToString (sha512.Sum384 (strBytes
        ("SETP990000000" ++ "2023-11-29" ++ "1000000.00" ++
         "01" ++ "190000.00" ++ "04" ++ "0.00" ++ "03" ++ "0.00" ++
         "1190000.00" ++ "900123456" ++ "800987654" ++
         "fc8eac422eba16e22ffd8c6f94b3f40a6e38162c354673d3a603956897890cd" ++ "2")))) ∧
    cufeReferenceDigest.length = 96 := by
  refine ⟨?_, ?_, ?_⟩
  · with_unfolding_all rfl
  · with_unfolding_all rfl
  · rfl

/-- The OUT movement a success of either OUT path appends. -/
def outMovement (st : inventory.TxState) (quantity : ℚ) (userID : String)
    (now : Nat) (txID : String) : InventoryMovement :=
  { TransactionID := txID,
    ProductID := st.stock.ProductID,
    WarehouseID := st.stock.WarehouseID,
    MovType := MovementTypeOUT,
    Quantity := -quantity,
    UnitCost := st.product.Cost,
    TotalCost := -quantity * st.product.Cost,
    Date := now, CreatedAt := now, CreatedBy := userID }

/-- C2: on both OUT paths (the standalone doOUT and the invoice pipeline
RegisterOUTInTx), a locked stock row below the requested quantity fails
with InsufficientStock and nothing is written; otherwise - the boundary
where the row equals the quantity included - the row is decremented by the
quantity and exactly one movement is appended carrying quantity = -qty,
unit cost = product.cost and total cost = -qty * product.cost. -/
theorem out_movement_semantics_c2 (st : inventory.TxState) (qty : ℚ)
    (userID : String) (now : Nat) (txID : String) :
    (st.stock.Quantity < qty →
      inventory.doOUT st qty userID now txID = .error .ErrInsufficientStock ∧
      inventory.RegisterOUTInTx st st.stock.ProductID st.stock.WarehouseID userID qty now txID =
        .error .ErrInsufficientStock) ∧
    (qty ≤ st.stock.Quantity →
      inventory.doOUT st qty userID now txID = .ok
        { stock := { st.stock with Quantity := st.stock.Quantity - qty, UpdatedAt := now },
          product := st.product,
          movements := st.movements ++ [outMovement st qty userID now txID] } ∧
      inventory.RegisterOUTInTx st st.stock.ProductID st.stock.WarehouseID userID qty now txID =
        inventory.doOUT st qty userID now txID) ∧
    (st.stock.Quantity = qty →
      ∀ st2, inventory.doOUT st qty userID now txID = .ok st2 → st2.stock.Quantity = 0) := by
  refine ⟨fun hlt => ?_, fun hle => ?_, fun heq st2 hok => ?_⟩
  · constructor <;> simp [inventory.doOUT, inventory.RegisterOUTInTx, hlt]
  · have hnlt : ¬ st.stock.Quantity < qty := not_lt.mpr hle
    constructor <;> simp [inventory.doOUT, inventory.RegisterOUTInTx, hnlt, outMovement]
  · have hnlt : ¬ st.stock.Quantity < qty := le_of_eq heq.symm |>.not_lt
    simp [inventory.doOUT, hnlt] at hok
    subst hok
    simp [heq]

/-- Witness data for the movement theorems. -/
def stockW : Stock := { ProductID := "p1", WarehouseID := "w1", Quantity := 5, UpdatedAt := 0 }

def productW : Product :=
  { ID := "p1", CompanyID := "co", SKU := "SKU-1", Name := "item", Price := 100,
    Cost := 50, TaxRate := 19, UnitMeasure := "" }

def txStateW : inventory.TxState := { stock := stockW, product := productW, movements := [] }

/-- C2 witness: the theorem applied at a concrete state with stock 5 and
requested quantity 5 (the boundary case). -/
theorem out_movement_semantics_c2_witness :
    ((5 : ℚ) ≤ txStateW.stock.Quantity) ∧
    inventory.doOUT txStateW 5 "u" 7 "t" = .ok
      { stock := { stockW with Quantity := 0, UpdatedAt := 7 },
        product := productW,
        movements := [outMovement txStateW 5 "u" 7 "t"] } := by
  have hle : (5 : ℚ) ≤ txStateW.stock.Quantity := by norm_num [txStateW, stockW]
  have h := (out_movement_semantics_c2 txStateW 5 "u" 7 "t").2.1 hle
  refine ⟨hle, ?_⟩
  rw [h.1]
  norm_num [txStateW, stockW]

/-- The IN movement a doIN appends. -/
def inMovement (st : inventory.TxState) (quantity unitCost : ℚ) (userID : String)
    (now : Nat) (txID : String) : InventoryMovement :=
  { TransactionID := txID,
    ProductID := st.stock.ProductID,
    WarehouseID := st.stock.WarehouseID,
    MovType := MovementTypeIN,
    Quantity := quantity,
    UnitCost := unitCost,
    TotalCost := quantity * unitCost,
    Date := now, CreatedAt := now, CreatedBy := userID }

/-- C3: every IN movement adds qty to the stock row, stamps its updated-at,
appends exactly one movement with positive quantity qty and total cost
qty * unit cost, and sets the product cost to the weighted average
(old_stock * old_cost + qty * unit_cost) / (old_stock + qty): a
non-positive denominator yields cost 0 instead of a division error, and
otherwise the cost is that quotient as computed by the 16-place decimal
division; whenever the exact quotient is representable in 16 decimal
places the cost equals the exact quotient. -/
theorem in_movement_weighted_cost_c3 (st : inventory.TxState) (qty unitCost : ℚ)
    (userID : String) (now : Nat) (txID : String) (hq : 0 < qty) :
    (inventory.doIN st qty unitCost userID now txID).stock.Quantity
        = st.stock.Quantity + qty ∧
    (inventory.doIN st qty unitCost userID now txID).stock.UpdatedAt = now ∧
    (inventory.doIN st qty unitCost userID now txID).movements
        = st.movements ++ [inMovement st qty unitCost userID now txID] ∧
    0 < (inMovement st qty unitCost userID now txID).Quantity ∧
    (st.stock.Quantity + qty ≤ 0 →
      (inventory.doIN st qty unitCost userID now txID).product.Cost = 0) ∧
    (0 < st.stock.Quantity + qty →
      (inventory.doIN st qty unitCost userID now txID).product.Cost =
        decDiv (st.stock.Quantity * st.product.Cost + qty * unitCost)
          (st.stock.Quantity + qty)) ∧
    (0 < st.stock.Quantity + qty →
      decRound 16 ((st.stock.Quantity * st.product.Cost + qty * unitCost) /
          (st.stock.Quantity + qty)) =
        (st.stock.Quantity * st.product.Cost + qty * unitCost) /
          (st.stock.Quantity + qty) →
      (inventory.doIN st qty unitCost userID now txID).product.Cost =
        (st.stock.Quantity * st.product.Cost + qty * unitCost) /
          (st.stock.Quantity + qty)) := by
  refine ⟨rfl, rfl, ?_, hq, fun hle => ?_, fun hpos => ?_, fun hpos hexact => ?_⟩
  · simp [inventory.doIN, inMovement]
  · simp [inventory.doIN, inventory.CostCalculator, hle]
  · have hne : ¬ st.stock.Quantity + qty ≤ 0 := not_le.mpr hpos
    simp [inventory.doIN, inventory.CostCalculator, hne]
  · have hne : ¬ st.stock.Quantity + qty ≤ 0 := not_le.mpr hpos
    have hnz : st.stock.Quantity + qty ≠ 0 := ne_of_gt hpos
    simp [inventory.doIN, inventory.CostCalculator, decDiv, hne, hnz, hexact]

/-- Witness state for C3: empty stock row for the product. -/
def txStateW0 : inventory.TxState :=
  { stock := { stockW with Quantity := 0 }, product := productW, movements := [] }

/-- C3 witness: the theorem applied at an empty stock row receiving 10
units at unit cost 50 (scenario 2 of the specification): the new product
cost is exactly 50. -/
theorem in_movement_weighted_cost_c3_witness :
    (0 : ℚ) < 10 ∧
    (inventory.doIN txStateW0 10 50 "u" 3 "t").stock.Quantity = 0 + 10 ∧
    (inventory.doIN txStateW0 10 50 "u" 3 "t").product.Cost = (0 * 50 + 10 * 50) / (0 + 10) := by
  have hq : (0 : ℚ) < 10 := by norm_num
  have h := in_movement_weighted_cost_c3 txStateW0 10 50 "u" 3 "t" hq
  refine ⟨hq, ?_, ?_⟩
  · have := h.1
    simpa [txStateW0, stockW] using this
  · have hpos : (0 : ℚ) < txStateW0.stock.Quantity + 10 := by
      norm_num [txStateW0, stockW]
    have hex : decRound 16 ((txStateW0.stock.Quantity * txStateW0.product.Cost + 10 * 50) /
        (txStateW0.stock.Quantity + 10)) =
        (txStateW0.stock.Quantity * txStateW0.product.Cost + 10 * 50) /
          (txStateW0.stock.Quantity + 10) := by
      norm_num [txStateW0, stockW, productW, decRound, roundHalfAway]
    have := h.2.2.2.2.2.2 hpos hex
    simpa [txStateW0, stockW, productW] using this

/-- Characters built from code points below the surrogate range keep their
code point. -/
lemma char_toNat_ofNat (n : Nat) (h : n < 55296) : (Char.ofNat n).toNat = n := by
  have hv : n < 55296 ∨ 57343 < n ∧ n < 1114112 := Or.inl h
  simp only [Char.ofNat, hv, dite_true, dif_pos]
  rfl

/-- extractDigits distributes over string append. -/
lemma extractDigits_append (s t : String) :
    dian.extractDigits (s ++ t) = dian.extractDigits s ++ dian.extractDigits t := by
  simp [dian.extractDigits, String.data_append, List.filter_append]

/-- The code point of the expected check digit character. -/
lemma expectedDigit_toNat (r : Nat) (hr : r < 11) :
    (dian.expectedDigit r).toNat = 48 + (if r = 0 ∨ r = 1 then r else 11 - r) := by
  unfold dian.expectedDigit
  split
  · rw [char_toNat_ofNat _ (by omega)]
  · rw [char_toNat_ofNat _ (by omega)]

/-- The expected check digit is a digit character. -/
lemma expectedDigit_isDigit (r : Nat) (hr : r < 11) :
    48 ≤ (dian.expectedDigit r).toNat ∧ (dian.expectedDigit r).toNat ≤ 57 := by
  rw [expectedDigit_toNat r hr]
  split <;> omega

/-- C9: for every tax id whose digit characters form a 9-digit root,
appending the check digit computed by ComputeNITVerificationDigit yields a
10-digit NIT that ValidateNITVerificationDigit accepts: the
compute-then-validate round trip is the identity on the 9-digit root. -/
theorem nit_check_digit_roundtrip_c9 (s : String) (c : Char)
    (h9 : (dian.extractDigits s).length = 9)
    (hc : dian.ComputeNITVerificationDigit s = .ok c) :
    dian.ValidateNITVerificationDigit (s ++ String.mk [c]) = .ok () := by
  have h99 : ¬ (dian.extractDigits s).length < 9 := by omega
  unfold dian.ComputeNITVerificationDigit at hc
  rw [if_neg h99] at hc
  have hdc : c = dian.expectedDigit
      (dian.nitWeightedSum ((dian.extractDigits s).take 9) % 11) := by
    cases hc
    rfl
  have hr : dian.nitWeightedSum ((dian.extractDigits s).take 9) % 11 < 11 :=
    Nat.mod_lt _ (by norm_num)
  have hcd := expectedDigit_isDigit _ hr
  rw [← hdc] at hcd
  have hext1 : dian.extractDigits (String.mk [c]) = [c] := by
    simp only [dian.extractDigits, List.filter]
    have h1 : (48 ≤ c.toNat && c.toNat ≤ 57) = true := by
      simp [hcd.1, hcd.2]
    simp [h1]
  have hextall : dian.extractDigits (s ++ String.mk [c]) = dian.extractDigits s ++ [c] := by
    rw [extractDigits_append, hext1]
  have htake9 : (dian.extractDigits s).take 9 = dian.extractDigits s := by
    rw [← h9]
    exact List.take_length _
  have htakeApp : ((dian.extractDigits s) ++ [c]).take 9 = dian.extractDigits s := by
    rw [List.take_append_of_le_length (by omega), htake9]
  have hgetD : ((dian.extractDigits s) ++ [c])[9]? = some c := by
    rw [← h9]
    exact List.getElem?_concat_length _ _
  rw [htake9] at hdc
  have hlen : ((dian.extractDigits s) ++ [c]).length = 10 := by simp [h9]
  unfold dian.ValidateNITVerificationDigit
  simp only [hextall, hlen, htakeApp, ← hdc]
  simp [hgetD]

/-- C9 witness: the round trip at the root 900123456 (check digit 8). -/
theorem nit_check_digit_roundtrip_c9_witness :
    (dian.extractDigits "900123456").length = 9 ∧
    dian.ComputeNITVerificationDigit "900123456" = .ok '8' ∧
    dian.ValidateNITVerificationDigit ("900123456" ++ String.mk ['8']) = .ok () := by
  refine ⟨by decide, by rfl, ?_⟩
  exact nit_check_digit_roundtrip_c9 "900123456" '8' (by decide) (by rfl)

/-- A stored row holding DIAN progress, used to exercise Update. -/
def rowW : postgres.InvoiceRow :=
  { cufe := some "c0", uuid := some "c0", xml_signed := some "<signed/>",
    dian_status := "SIGNED", qr_data := some "qr0", track_id_dian := some "tr0",
    dian_errors := some "e0", updated_at := 1 }

/-- An update argument whose nullable fields are all empty. -/
def invUpdW : Invoice :=
  { ID := "i1", CompanyID := "co", CustomerID := "cu", prefixStr := "F",
    Number := "1", Date := "2023-11-29", NetTotal := 0, TaxTotal := 0,
    GrandTotal := 0, DIAN_Status := "EXITOSO", CUFE := "", UUID := "",
    XMLSigned := "", QRData := "", TrackID := "", DIANErrors := "",
    CreatedAt := 0, UpdatedAt := 2 }

/-- C5 counterexample: an invoice argument with an empty signed-xml field
erases the stored xml_signed column - the xml_signed assignment carries no
COALESCE - so not every lifecycle column is protected. -/
theorem invoice_update_xml_signed_cex_c5 :
    invUpdW.XMLSigned = "" ∧
    (postgres.InvoiceRepoUpdate rowW invUpdW).xml_signed = none ∧
    (postgres.InvoiceRepoUpdate rowW invUpdW).xml_signed ≠ rowW.xml_signed := by
  refine ⟨rfl, rfl, ?_⟩
  simp [postgres.InvoiceRepoUpdate, postgres.nullIfEmpty, rowW, invUpdW]

/-- C5 amended: Update writes only the DIAN-lifecycle columns; the cufe,
uuid, qr_data, track_id_dian and dian_errors assignments go through
COALESCE, so an empty value never erases those stored columns; xml_signed,
dian_status and updated_at are assigned directly, so an empty signed-xml
argument nulls the stored xml_signed. -/
theorem invoice_update_coalesce_c5 (row : postgres.InvoiceRow) (inv : Invoice) :
    (inv.CUFE = "" → (postgres.InvoiceRepoUpdate row inv).cufe = row.cufe) ∧
    (inv.UUID = "" → (postgres.InvoiceRepoUpdate row inv).uuid = row.uuid) ∧
    (inv.QRData = "" → (postgres.InvoiceRepoUpdate row inv).qr_data = row.qr_data) ∧
    (inv.TrackID = "" → (postgres.InvoiceRepoUpdate row inv).track_id_dian = row.track_id_dian) ∧
    (inv.DIANErrors = "" → (postgres.InvoiceRepoUpdate row inv).dian_errors = row.dian_errors) ∧
    (postgres.InvoiceRepoUpdate row inv).xml_signed = postgres.nullIfEmpty inv.XMLSigned ∧
    (postgres.InvoiceRepoUpdate row inv).dian_status = inv.DIAN_Status ∧
    (postgres.InvoiceRepoUpdate row inv).updated_at = inv.UpdatedAt := by
  refine ⟨fun h => ?_, fun h => ?_, fun h => ?_, fun h => ?_, fun h => ?_, rfl, rfl, rfl⟩ <;>
    simp [postgres.InvoiceRepoUpdate, postgres.nullIfEmpty, postgres.coalesce, h]

/-- C5 witness: the amended theorem at the concrete row and argument above:
all five protected columns keep their stored values. -/
theorem invoice_update_coalesce_c5_witness :
    (postgres.InvoiceRepoUpdate rowW invUpdW).cufe = rowW.cufe ∧
    (postgres.InvoiceRepoUpdate rowW invUpdW).uuid = rowW.uuid ∧
    (postgres.InvoiceRepoUpdate rowW invUpdW).qr_data = rowW.qr_data ∧
    (postgres.InvoiceRepoUpdate rowW invUpdW).track_id_dian = rowW.track_id_dian ∧
    (postgres.InvoiceRepoUpdate rowW invUpdW).dian_errors = rowW.dian_errors := by
  have h := invoice_update_coalesce_c5 rowW invUpdW
  exact ⟨h.1 rfl, h.2.1 rfl, h.2.2.1 rfl, h.2.2.2.1 rfl, h.2.2.2.2.1 rfl⟩

/-- The result record the dev path synthesizes. -/
def mockResult : billing.SubmitStepResult :=
  { finalStatus := DIANStatusExitoso, trackID := "MOCK-TRACK-123",
    dianErrors := "", remoteCalled := false }

/-- The result record of a markError exit of the submit step. -/
def errGenResult (remote : Bool) : billing.SubmitStepResult :=
  { finalStatus := DIANStatusErrorGeneration, trackID := "", dianErrors := "",
    remoteCalled := remote }

/-- C6 counterexample: the empty app-environment is not one of dev, test,
prod, yet the submit step takes the dev branch and produces the mock
ACCEPTED result rather than GENERATION_ERROR. -/
theorem submit_step_empty_env_cex_c6 :
    "" ≠ dian.AppEnvDev ∧ "" ≠ dian.AppEnvTest ∧ "" ≠ dian.AppEnvProd ∧
    billing.processSubmitStep "" none = mockResult ∧
    mockResult.finalStatus ≠ DIANStatusErrorGeneration := by
  refine ⟨by decide, by decide, by decide, by rfl, by decide⟩

/-- C6 amended: after trimming and lowercasing the configured value, dev
and the empty string skip the remote call and synthesize tracking id
MOCK-TRACK-123 with terminal status ACCEPTED (EXITOSO); test submits via
the SendTestSetAsync operation and prod via SendBillAsync (shown through
buildRequest, with a missing submitter degrading to GENERATION_ERROR);
every other value yields terminal status GENERATION_ERROR. -/
theorem submit_step_env_dispatch_c6 (cfg : String) (sub : Option dian.HttpOutcome) :
    (toLower (trimSpace cfg) = dian.AppEnvDev ∨ toLower (trimSpace cfg) = "" →
      billing.processSubmitStep cfg sub = mockResult) ∧
    dian.buildRequest dian.AppEnvTest =
      .ok (dian.soapURLTest, dian.soapActionBase ++ "SendTestSetAsync", .SendTestSetAsync) ∧
    dian.buildRequest dian.AppEnvProd =
      .ok (dian.soapURLProd, dian.soapActionBase ++ "SendBillAsync", .SendBillAsync) ∧
    (toLower (trimSpace cfg) = dian.AppEnvTest ∨ toLower (trimSpace cfg) = dian.AppEnvProd →
      (sub = none →
        billing.processSubmitStep cfg sub = errGenResult false) ∧
      (∀ oc, sub = some oc → (billing.processSubmitStep cfg sub).remoteCalled = true)) ∧
    (toLower (trimSpace cfg) ≠ dian.AppEnvDev → toLower (trimSpace cfg) ≠ "" →
      toLower (trimSpace cfg) ≠ dian.AppEnvTest → toLower (trimSpace cfg) ≠ dian.AppEnvProd →
      billing.processSubmitStep cfg sub = errGenResult false) := by
  refine ⟨fun h => ?_, by rfl, by rfl, fun h => ⟨fun hn => ?_, fun oc hoc => ?_⟩,
    fun h1 h2 h3 h4 => ?_⟩
  · simp only [billing.processSubmitStep, h]
    simp [mockResult]
  · subst hn
    have hne : ¬ (toLower (trimSpace cfg) = dian.AppEnvDev ∨ toLower (trimSpace cfg) = "") := by
      rcases h with h | h <;> simp [h, dian.AppEnvDev, dian.AppEnvTest, dian.AppEnvProd]
    simp only [billing.processSubmitStep, if_neg hne, if_pos h]
    simp [errGenResult]
  · subst hoc
    have hne : ¬ (toLower (trimSpace cfg) = dian.AppEnvDev ∨ toLower (trimSpace cfg) = "") := by
      rcases h with h | h <;> simp [h, dian.AppEnvDev, dian.AppEnvTest, dian.AppEnvProd]
    simp only [billing.processSubmitStep, if_neg hne, if_pos h]
    cases hz : dian.SubmitZip (toLower (trimSpace cfg)) oc with
    | error e => simp [hz]
    | ok r =>
      by_cases hacc : r.Accepted <;> simp [hz, hacc]
  · have hne1 : ¬ (toLower (trimSpace cfg) = dian.AppEnvDev ∨ toLower (trimSpace cfg) = "") := by
      simp [h1, h2]
    have hne2 : ¬ (toLower (trimSpace cfg) = dian.AppEnvTest ∨ toLower (trimSpace cfg) = dian.AppEnvProd) := by
      simp [h3, h4]
    simp only [billing.processSubmitStep, if_neg hne1, if_neg hne2]
    simp [errGenResult]

/-- C6 witness: the amended theorem at the raw value " DEV ", which trims
and lowers to dev and produces the mock ACCEPTED result. -/
theorem submit_step_env_dispatch_c6_witness :
    toLower (trimSpace " DEV ") = dian.AppEnvDev ∧
    billing.processSubmitStep " DEV " none = mockResult := by
  have h : toLower (trimSpace " DEV ") = dian.AppEnvDev := by decide
  exact ⟨h, (submit_step_env_dispatch_c6 " DEV " none).1 (Or.inl h)⟩

/-- C7 counterexample: in prod, an unparsable response body is not a
structured DIAN rejection, yet it yields terminal status REJECTED
(RECHAZADO), not GENERATION_ERROR: parseResponse returns Accepted = false
with a nil error instead of failing. -/
theorem soap_unparsable_rejected_cex_c7 :
    billing.processSubmitStep "prod" (some (.response "garbage" none)) =
      { finalStatus := DIANStatusRechazado, trackID := "",
        dianErrors := "no se pudo parsear respuesta SOAP: garbage", remoteCalled := true } ∧
    DIANStatusRechazado ≠ DIANStatusErrorGeneration := by
  exact ⟨by rfl, by decide⟩

/-- C7 amended: when remote submission is attempted (test or prod), an
HTTP transport failure yields terminal status GENERATION_ERROR, while an
unparsable response, a SOAP protocol fault and a response missing the
expected operation result each yield REJECTED with a descriptive message;
a parsed operation result yields REJECTED exactly when its HasErrors flag
is set, with the error message list joined by "; " preserved on the
invoice, and ACCEPTED otherwise. -/
theorem soap_failure_mapping_c7 (cfg : String) (oc : dian.HttpOutcome)
    (henv : toLower (trimSpace cfg) = dian.AppEnvTest ∨
            toLower (trimSpace cfg) = dian.AppEnvProd) :
    (∀ msg, oc = .failure msg →
      billing.processSubmitStep cfg (some oc) = errGenResult true) ∧
    (∀ raw, oc = .response raw none →
      billing.processSubmitStep cfg (some oc) =
        { finalStatus := DIANStatusRechazado, trackID := "",
          dianErrors := "no se pudo parsear respuesta SOAP: " ++ raw, remoteCalled := true }) ∧
    (∀ raw body fc fs, oc = .response raw (some body) → body.Fault = some (fc, fs) →
      billing.processSubmitStep cfg (some oc) =
        { finalStatus := DIANStatusRechazado, trackID := "",
          dianErrors := "SOAP Fault [" ++ fc ++ "]: " ++ fs, remoteCalled := true }) ∧
    (∀ raw body, oc = .response raw (some body) → body.Fault = none →
      (if toLower (trimSpace cfg) = dian.AppEnvProd then body.SendBillResponse
       else body.SendTestSetResponse) = none →
      billing.processSubmitStep cfg (some oc) =
        { finalStatus := DIANStatusRechazado, trackID := "",
          dianErrors := "respuesta SOAP vacia o inesperada: " ++ raw, remoteCalled := true }) ∧
    (∀ raw body r, oc = .response raw (some body) → body.Fault = none →
      (if toLower (trimSpace cfg) = dian.AppEnvProd then body.SendBillResponse
       else body.SendTestSetResponse) = some r →
      (r.HasErrors = true →
        billing.processSubmitStep cfg (some oc) =
          { finalStatus := DIANStatusRechazado, trackID := r.ZipKey,
            dianErrors := String.intercalate "; " r.ErrorMessageList, remoteCalled := true }) ∧
      (r.HasErrors = false →
        billing.processSubmitStep cfg (some oc) =
          { finalStatus := DIANStatusExitoso, trackID := r.ZipKey,
            dianErrors := String.intercalate "; " r.ErrorMessageList, remoteCalled := true })) := by
  have hne : ¬ (toLower (trimSpace cfg) = dian.AppEnvDev ∨ toLower (trimSpace cfg) = "") := by
    rcases henv with h | h <;> simp [h, dian.AppEnvDev, dian.AppEnvTest, dian.AppEnvProd]
  refine ⟨fun msg hoc => ?_, fun raw hoc => ?_, fun raw body fc fs hoc hf => ?_,
    fun raw body hoc hf hres => ?_, fun raw body r hoc hf hres => ⟨fun herr => ?_, fun herr => ?_⟩⟩ <;>
    subst hoc <;>
    rcases henv with h | h <;>
    simp only [billing.processSubmitStep, if_neg hne, if_pos (Or.inl h), if_pos (Or.inr h)] <;>
    simp_all [dian.SubmitZip, dian.buildRequest, dian.parseResponse, errGenResult,
      dian.AppEnvDev, dian.AppEnvTest, dian.AppEnvProd]

/-- C7 witness: a transport failure in the test environment yields
GENERATION_ERROR. -/
theorem soap_failure_mapping_c7_witness :
    (toLower (trimSpace "test") = dian.AppEnvTest ∨ toLower (trimSpace "test") = dian.AppEnvProd) ∧
    billing.processSubmitStep "test" (some (.failure "net down")) = errGenResult true := by
  have henv : toLower (trimSpace "test") = dian.AppEnvTest ∨
      toLower (trimSpace "test") = dian.AppEnvProd := Or.inl (by decide)
  exact ⟨henv,
    (soap_failure_mapping_c7 "test" (.failure "net down") henv).1 "net down" rfl⟩

/-- The invoice line built from a validated (item, product) pair. -/
def detailOf (invoiceID : String) (ip : billing.CreateInvoiceItem × Product) : InvoiceDetail :=
  { ID := "", InvoiceID := invoiceID, ProductID := ip.1.ProductID,
    Quantity := ip.1.Quantity, UnitPrice := ip.1.UnitPrice,
    TaxRate := billing.toRate ip.2.TaxRate,
    Subtotal := ip.1.Quantity * ip.1.UnitPrice }

/-- Inversion of a successful CreateInvoice run: the validated pairs, the
totals, the DRAFT status, the lines, and the untouched inventory when the
module is inactive. -/
lemma createInvoice_ok_inv {env : billing.CreateInvoiceEnv} {companyID userID : String}
    {inp : billing.CreateInvoiceRequest} {now : Nat} {invID : String}
    {res : billing.CreateInvoiceResult}
    (hok : billing.CreateInvoice env companyID userID inp now invID = .ok res) :
    ∃ pairs, billing.validateItems env.productByID companyID inp.Items = .ok pairs ∧
      res.invoice.NetTotal = (pairs.map (fun ip => ip.1.Quantity * ip.1.UnitPrice)).sum ∧
      res.invoice.TaxTotal =
        (pairs.map (fun ip => ip.1.Quantity * ip.1.UnitPrice * billing.toRate ip.2.TaxRate)).sum ∧
      res.invoice.GrandTotal = res.invoice.NetTotal + res.invoice.TaxTotal ∧
      res.invoice.DIAN_Status = DIANStatusDraft ∧
      res.details = pairs.map (detailOf invID) ∧
      (env.moduleLookup.1 = false → res.movements = [] ∧ res.stocks = env.stockFor) := by
  unfold billing.CreateInvoice at hok
  dsimp only at hok
  repeat' split at hok
  all_goals cases hok
  all_goals refine ⟨_, by assumption, rfl, rfl, rfl, rfl, rfl, fun hfalse => ?_⟩
  all_goals simp_all

/-- Every pair validateItems returns carries the product its item refers
to. -/
lemma validateItems_products {pb : String → Option Product} {companyID : String} :
    ∀ {items : List billing.CreateInvoiceItem} {pairs},
    billing.validateItems pb companyID items = .ok pairs →
    ∀ ip ∈ pairs, pb ip.1.ProductID = some ip.2 := by
  intro items
  induction items with
  | nil =>
    intro pairs h
    unfold billing.validateItems at h
    cases h
    simp
  | cons item rest ih =>
    intro pairs h
    unfold billing.validateItems at h
    repeat' split at h
    all_goals cases h
    all_goals intro ip hip
    all_goals rcases List.mem_cons.mp hip with hip | hip
    all_goals first
      | (subst hip; simp_all)
      | exact ih (by assumption) ip hip

/-- The 16-place rounding keeps values of the unit interval inside it. -/
lemma decRound16_mem_unit {q : ℚ} (h0 : 0 ≤ q) (h1 : q ≤ 1) :
    0 ≤ decRound 16 q ∧ decRound 16 q ≤ 1 := by
  have hx0 : (0 : ℚ) ≤ q * 10 ^ 16 := by positivity
  have hnneg : ¬ q * 10 ^ 16 < 0 := not_lt.mpr hx0
  have hfl : roundHalfAway (q * 10 ^ 16) = Int.floor (q * 10 ^ 16 + 1 / 2) := by
    simp [roundHalfAway, hnneg]
  have hmul : q * 10 ^ 16 ≤ 10 ^ 16 := by
    have := mul_le_mul_of_nonneg_right h1 (by positivity : (0 : ℚ) ≤ 10 ^ 16)
    simpa using this
  constructor
  · rw [decRound, hfl]
    have h2 : (0 : ℚ) ≤ ((Int.floor (q * 10 ^ 16 + 1 / 2) : ℤ) : ℚ) := by
      exact_mod_cast Int.floor_nonneg.mpr (by linarith)
    exact div_nonneg h2 (by norm_num)
  · rw [decRound, hfl]
    have hle : q * 10 ^ 16 + 1 / 2 ≤ (10 : ℚ) ^ 16 + 1 / 2 := by linarith
    have hstep : Int.floor (q * 10 ^ 16 + 1 / 2) ≤ Int.floor ((10 : ℚ) ^ 16 + 1 / 2) :=
      Int.floor_le_floor hle
    have heq : Int.floor ((10 : ℚ) ^ 16 + 1 / 2) = 10 ^ 16 := by
      rw [Int.floor_eq_iff]
      norm_num
    rw [heq] at hstep
    rw [div_le_one (by norm_num : (0 : ℚ) < 10 ^ 16)]
    exact_mod_cast hstep

/-- C4 amended: for every invoice CreateInvoice produces, net_total is the
sum of the line subtotals, each subtotal is quantity times unit price,
tax_total is the exact (unrounded) sum of subtotal times tax rate over the
lines, grand_total = net_total + tax_total, and each line's tax rate is
the product's rate normalized on write - divided by 100 when greater
than 1, which lands in 0.00-1.00 for percent inputs up to 100. -/
theorem create_invoice_totals_c4 (env : billing.CreateInvoiceEnv)
    (companyID userID : String) (inp : billing.CreateInvoiceRequest)
    (now : Nat) (invID : String) (res : billing.CreateInvoiceResult)
    (hok : billing.CreateInvoice env companyID userID inp now invID = .ok res) :
    res.invoice.NetTotal = (res.details.map InvoiceDetail.Subtotal).sum ∧
    (∀ d ∈ res.details, d.Subtotal = d.Quantity * d.UnitPrice) ∧
    res.invoice.TaxTotal = (res.details.map (fun d => d.Subtotal * d.TaxRate)).sum ∧
    res.invoice.GrandTotal = res.invoice.NetTotal + res.invoice.TaxTotal ∧
    (∀ d ∈ res.details, ∃ p, env.productByID d.ProductID = some p ∧
      d.TaxRate = billing.toRate p.TaxRate ∧
      (0 ≤ p.TaxRate → p.TaxRate ≤ 100 → 0 ≤ d.TaxRate ∧ d.TaxRate ≤ 1)) := by
  obtain ⟨pairs, hp, hnet, htax, hgrand, _, hdet, _⟩ := createInvoice_ok_inv hok
  have hmapSub : (res.details.map InvoiceDetail.Subtotal) =
      pairs.map (fun ip => ip.1.Quantity * ip.1.UnitPrice) := by
    rw [hdet, List.map_map]
    rfl
  have hmapTax : (res.details.map (fun d => d.Subtotal * d.TaxRate)) =
      pairs.map (fun ip => ip.1.Quantity * ip.1.UnitPrice * billing.toRate ip.2.TaxRate) := by
    rw [hdet, List.map_map]
    rfl
  refine ⟨by rw [hmapSub]; exact hnet, ?_, by rw [hmapTax]; exact htax, hgrand, ?_⟩
  · intro d hd
    rw [hdet] at hd
    obtain ⟨ip, _, hip⟩ := List.mem_map.mp hd
    subst hip
    rfl
  · intro d hd
    rw [hdet] at hd
    obtain ⟨ip, hipmem, hip⟩ := List.mem_map.mp hd
    subst hip
    refine ⟨ip.2, validateItems_products hp ip hipmem, rfl, fun hr0 hr100 => ?_⟩
    show 0 ≤ billing.toRate ip.2.TaxRate ∧ billing.toRate ip.2.TaxRate ≤ 1
    unfold billing.toRate
    split
    · rename_i hgt
      unfold decDiv
      rw [if_neg (by norm_num : (100 : ℚ) ≠ 0)]
      exact decRound16_mem_unit (by positivity)
        (by rw [div_le_one (by norm_num : (0:ℚ) < 100)]; exact hr100)
    · rename_i hgt
      exact ⟨hr0, le_of_not_lt hgt⟩

/-- Concrete fixtures exercising CreateInvoice with the inventory-module
lookup failed: a 19-percent product sold at 0.01. -/
def productC : Product :=
  { ID := "p1", CompanyID := "co", SKU := "S", Name := "N", Price := 100,
    Cost := 50, TaxRate := 19, UnitMeasure := "" }

def customerC : Customer :=
  { ID := "c1", CompanyID := "co", Name := "ACME", TaxID := "800987654" }

def envC : billing.CreateInvoiceEnv :=
  { customer := some customerC, companyFound := true,
    moduleLookup := (false, some "db caida"),
    warehouse := none,
    productByID := fun pid => if pid = "p1" then some productC else none,
    stockFor := fun _ _ => .error .ErrNotFound }

def inpC : billing.CreateInvoiceRequest :=
  { CustomerID := "c1", WarehouseID := "", prefixStr := "F", Number := "9",
    Items := [{ ProductID := "p1", Quantity := 1, UnitPrice := 1 / 100 }] }

def resC : billing.CreateInvoiceResult :=
  { invoice :=
      { ID := "inv1", CompanyID := "co", CustomerID := "c1", prefixStr := "F",
        Number := "9", Date := "", NetTotal := 1 / 100, TaxTotal := 19 / 10000,
        GrandTotal := 119 / 10000, DIAN_Status := DIANStatusDraft, CUFE := "",
        UUID := "", XMLSigned := "", QRData := "", TrackID := "", DIANErrors := "",
        CreatedAt := 0, UpdatedAt := 0 },
    details := [
      { ID := "", InvoiceID := "inv1", ProductID := "p1", Quantity := 1,
        UnitPrice := 1 / 100, TaxRate := 19 / 100, Subtotal := 1 / 100 }],
    movements := [],
    stocks := envC.stockFor }

/-- C4 counterexample: one line of quantity 1 at price 0.01 with a
19-percent product: the stored tax_total is 0.0019 exactly, while the sum
of subtotal times rate rounded to 2 decimals is 0.00, so tax_total does
not equal the rounded sum. -/
theorem create_invoice_tax_rounding_cex_c4 :
    billing.CreateInvoice envC "co" "u" inpC 0 "inv1" = .ok resC ∧
    resC.invoice.TaxTotal = 19 / 10000 ∧
    (resC.details.map (fun d => d.Subtotal * d.TaxRate)).sum = 19 / 10000 ∧
    decRound 2 ((resC.details.map (fun d => d.Subtotal * d.TaxRate)).sum) = 0 ∧
    resC.invoice.TaxTotal ≠
      decRound 2 ((resC.details.map (fun d => d.Subtotal * d.TaxRate)).sum) := by
  refine ⟨by with_unfolding_all rfl, by with_unfolding_all rfl, by with_unfolding_all rfl,
    by with_unfolding_all rfl, ?_⟩
  intro hcontra
  rw [show decRound 2 ((resC.details.map (fun d => d.Subtotal * d.TaxRate)).sum) = 0 from
    by with_unfolding_all rfl] at hcontra
  have : resC.invoice.TaxTotal = 19 / 10000 := by with_unfolding_all rfl
  rw [this] at hcontra
  norm_num at hcontra

/-- C4 witness: the amended theorem at the concrete run above. -/
theorem create_invoice_totals_c4_witness :
    billing.CreateInvoice envC "co" "u" inpC 0 "inv1" = .ok resC ∧
    resC.invoice.NetTotal = (resC.details.map InvoiceDetail.Subtotal).sum ∧
    resC.invoice.GrandTotal = resC.invoice.NetTotal + resC.invoice.TaxTotal := by
  have hok : billing.CreateInvoice envC "co" "u" inpC 0 "inv1" = .ok resC := by
    with_unfolding_all rfl
  have h := create_invoice_totals_c4 envC "co" "u" inpC 0 "inv1" resC hok
  exact ⟨hok, h.1, h.2.2.2.1⟩

/-- C10: the error CreateInvoice discards from the inventory-module lookup
never influences the result: the run equals the run with the error erased;
and since the postgres adapter answers false on a failed query, a failed
lookup behaves exactly like an inactive module - no warehouse is read, no
stock is touched, no movements are recorded - and a successful call still
yields a DRAFT invoice. -/
theorem module_lookup_error_discarded_c10 (env : billing.CreateInvoiceEnv)
    (companyID userID : String) (inp : billing.CreateInvoiceRequest)
    (now : Nat) (invID : String) (b : Bool) (e : String)
    (h : env.moduleLookup = (b, some e)) :
    billing.hasActiveModuleResult (.error e) = (false, some e) ∧
    billing.CreateInvoice env companyID userID inp now invID =
      billing.CreateInvoice { env with moduleLookup := (b, none) } companyID userID inp now invID ∧
    (b = false →
      (∀ w1 w2 : Option Warehouse,
        billing.CreateInvoice { env with warehouse := w1 } companyID userID inp now invID =
        billing.CreateInvoice { env with warehouse := w2 } companyID userID inp now invID) ∧
      (∀ res, billing.CreateInvoice env companyID userID inp now invID = .ok res →
        res.movements = [] ∧ res.stocks = env.stockFor ∧
        res.invoice.DIAN_Status = DIANStatusDraft)) := by
  obtain ⟨customer, companyFound, module, warehouse, productByID, stockFor⟩ := env
  simp only at h
  subst h
  refine ⟨rfl, rfl, fun hb => ⟨fun w1 w2 => ?_, fun res hok => ?_⟩⟩
  · subst hb
    rfl
  · subst hb
    obtain ⟨_, _, _, _, _, hstatus, _, hmod⟩ := createInvoice_ok_inv hok
    obtain ⟨hmovs, hstocks⟩ := hmod rfl
    exact ⟨hmovs, hstocks, hstatus⟩

/-- C10 witness: the concrete run with the lookup failed (false, error):
the invoice is created in DRAFT with no movements. -/
theorem module_lookup_error_discarded_c10_witness :
    envC.moduleLookup = (false, some "db caida") ∧
    billing.CreateInvoice envC "co" "u" inpC 0 "inv1" =
      billing.CreateInvoice { envC with moduleLookup := (false, none) } "co" "u" inpC 0 "inv1" ∧
    billing.CreateInvoice envC "co" "u" inpC 0 "inv1" = .ok resC ∧
    resC.movements = [] ∧ resC.invoice.DIAN_Status = DIANStatusDraft := by
  have hm : envC.moduleLookup = (false, some "db caida") := rfl
  have h := module_lookup_error_discarded_c10 envC "co" "u" inpC 0 "inv1" false "db caida" hm
  have hok : billing.CreateInvoice envC "co" "u" inpC 0 "inv1" = .ok resC := by
    with_unfolding_all rfl
  have hfacts := (h.2.2 rfl).2 resC hok
  exact ⟨hm, h.2.1, hok, hfacts.1, hfacts.2.2⟩

lemma processBlock_length (H b : List Nat) : (sha512.processBlock H b).length = 8 := by
  simp [sha512.processBlock]

lemma foldl_processBlock_length :
    ∀ (blocks : List (List Nat)) (H : List Nat), H.length = 8 →
      (blocks.foldl sha512.processBlock H).length = 8 := by
  intro blocks
  induction blocks with
  | nil => intro H h; simpa
  | cons b bs ih =>
    intro H h
    simp only [List.foldl_cons]
    exact ih _ (processBlock_length H b)

lemma length_flatMap_wordToBytes :
    ∀ l : List Nat, (l.flatMap sha512.wordToBytes).length = 8 * l.length := by
  intro l
  induction l with
  | nil => simp
  | cons a rest ih =>
    simp only [List.flatMap_cons, List.length_append, ih]
    simp [sha512.wordToBytes]
    ring

lemma sum384_length (msg : List Nat) : (sha512.Sum384 msg).length = 48 := by
  unfold sha512.Sum384
  rw [length_flatMap_wordToBytes, List.length_take,
    foldl_processBlock_length _ _ (by rfl)]
  rfl

lemma length_hexEncodeAscii : ∀ bs : List Nat, (hexEncodeAscii bs).length = 2 * bs.length := by
  intro bs
  induction bs with
  | nil => simp [hexEncodeAscii]
  | cons b rest ih =>
    simp only [hexEncodeAscii, List.flatMap_cons] at *
    simp [ih]
    ring

lemma length_hexEncodeToString (bs : List Nat) :
    (hexEncodeToString bs).length = 2 * bs.length := by
  show ((hexEncodeAscii bs).map Char.ofNat).length = 2 * bs.length
  rw [List.length_map, length_hexEncodeAscii]

/-- The lowercase hex alphabet. -/
def hexAlphabet : List Char := "0123456789abcdef".data

lemma hexDigit_char_mem : ∀ x, x < 16 → Char.ofNat (hexDigit x) ∈ hexAlphabet := by decide

lemma hexEncodeToString_mem (bs : List Nat) :
    ∀ c ∈ (hexEncodeToString bs).data, c ∈ hexAlphabet := by
  intro c hc
  have hc2 : c ∈ (hexEncodeAscii bs).map Char.ofNat := hc
  obtain ⟨a, ha, rfl⟩ := List.mem_map.mp hc2
  simp only [hexEncodeAscii, List.mem_flatMap] at ha
  obtain ⟨b, _, hb⟩ := ha
  rcases List.mem_cons.mp hb with h | h
  · subst h
    exact hexDigit_char_mem _ (Nat.mod_lt _ (by norm_num))
  · rcases List.mem_cons.mp h with h | h
    · subst h
      exact hexDigit_char_mem _ (Nat.mod_lt _ (by norm_num))
    · cases h


lemma calculate_ok_shape {p : CufeParams} {s : String}
    (h : CufeCalculatorService.Calculate p = .ok s) :
    ∃ msg, s = hexEncodeToString (sha512.Sum384 msg) := by
  unfold CufeCalculatorService.Calculate at h
  by_cases h1 : removeWhitespace p.NumFac = ""
  · simp [h1] at h
  by_cases h2 : p.FecFac = ""
  · simp [h1, h2] at h
  by_cases h3 : onlyDigits p.NitOfe = ""
  · simp [h1, h2, h3] at h
  by_cases h4 : onlyDigits p.DocAdq = ""
  · simp [h1, h2, h3, h4] at h
  by_cases h5 : p.ClTec = ""
  · simp [h1, h2, h3, h4, h5] at h
  simp only [h1, h2, h3, h4, h5, if_neg, ite_false] at h
  have h6 := (Except.ok.injEq _ _).mp h
  exact ⟨_, h6.symm⟩

lemma calculateCufeFromInvoice_ok {ctx : dian.CufeContext} {cufe : String} {inv2 : Invoice}
    (h : dian.CalculateCufeFromInvoice ctx = .ok (cufe, inv2)) :
    inv2.CUFE = cufe ∧ inv2.UUID = cufe ∧
    ∃ msg, cufe = hexEncodeToString (sha512.Sum384 msg) := by
  unfold dian.CalculateCufeFromInvoice at h
  split at h
  all_goals dsimp only at h
  all_goals split at h
  all_goals cases h
  all_goals rename_i hcalc
  all_goals exact ⟨rfl, rfl, calculate_ok_shape hcalc⟩

/-- The UBLExtensions container after the signature has been injected. -/
def extensionsAfterInjection (resolution : Option dian.BillingResolutionData) : dian.XmlElem :=
  ⟨"ext", "UBLExtensions",
    [⟨"ext", "UBLExtension",
      [⟨"ext", "ExtensionContent",
        match resolution with
        | some _ => [dian.dianExtensionsElem]
        | none => []⟩]⟩,
     ⟨"ext", "UBLExtension", [⟨"ext", "ExtensionContent", [dian.signatureElem]⟩]⟩]⟩

lemma injectSignature_build (ctx : dian.InvoiceBuildContext) :
    dian.injectSignature (dian.Build ctx) dian.signatureElem =
      .ok ⟨"", "Invoice", extensionsAfterInjection ctx.Resolution :: dian.buildBodyChildren ctx⟩ := by
  cases hr : ctx.Resolution <;>
    simp [dian.injectSignature, dian.Build, dian.writeUBLExtensions, dian.injectInRootChildren,
      dian.injectInUBLExts, dian.injectInExtContents, dian.addChild, extensionsAfterInjection, hr]


/-- C8: whenever the build-and-sign path succeeds (the invoice reaches
SIGNED), the invoice CUFE equals its UUID and is a 96-character lowercase
hex string; the signed document has the ext:UBLExtensions container as its
first child, holding exactly two ext:UBLExtension elements - the first
with the DIAN resolution extension, or empty content when no active
resolution exists, the second the signature slot - and the second
ext:ExtensionContent, located by positional count, holds exactly one child
element whose local name is Signature. -/
theorem signed_invoice_structure_c8
    (ctx : dian.CufeContext) (details : List dian.InvoiceLineForXML)
    (resolution : Option dian.BillingResolutionData) (custCode : String)
    (inv2 : Invoice) (tree : dian.XmlElem)
    (hok : dian.buildAndSign ctx details resolution custCode = .ok (inv2, tree)) :
    inv2.CUFE = inv2.UUID ∧
    inv2.CUFE.length = 96 ∧
    (∀ c ∈ inv2.CUFE.data, c ∈ hexAlphabet) ∧
    inv2.DIAN_Status = DIANStatusSigned ∧
    (∃ rest, tree.children = extensionsAfterInjection resolution :: rest) ∧
    (extensionsAfterInjection resolution).tag = "UBLExtensions" ∧
    (extensionsAfterInjection resolution).children.length = 2 ∧
    (∀ e ∈ (extensionsAfterInjection resolution).children, e.tag = "UBLExtension") ∧
    ((extensionsAfterInjection resolution).children.head? =
      some ⟨"ext", "UBLExtension", [⟨"ext", "ExtensionContent",
        match resolution with | some _ => [dian.dianExtensionsElem] | none => []⟩]⟩) ∧
    ((extensionsAfterInjection resolution).children.getLast? =
      some ⟨"ext", "UBLExtension", [⟨"ext", "ExtensionContent", [dian.signatureElem]⟩]⟩) ∧
    dian.signatureElem.tag = "Signature" := by
  unfold dian.buildAndSign at hok
  split at hok
  · cases hok
  · rename_i pr heq
    dsimp only at hok
    rw [injectSignature_build] at hok
    cases hok
    obtain ⟨hc, hu, msg, hmsg⟩ := calculateCufeFromInvoice_ok heq
    refine ⟨?_, ?_, ?_, rfl, ⟨_, rfl⟩, rfl, rfl, ?_, ?_, ?_, rfl⟩
    · show pr.CUFE = pr.UUID
      rw [hc, hu]
    · show pr.CUFE.length = 96
      rw [hc, hmsg, length_hexEncodeToString, sum384_length]
    · show ∀ c ∈ pr.CUFE.data, c ∈ hexAlphabet
      rw [hc, hmsg]
      exact hexEncodeToString_mem _
    · cases resolution <;> simp [extensionsAfterInjection]
    · cases resolution <;> rfl
    · cases resolution <;> rfl

def companyW8 : Company :=
  { ID := "co", NIT := "900123456", Name := "Emisor SAS", Address := "Calle 1" }

def customerW8 : Customer :=
  { ID := "cu", CompanyID := "co", Name := "ACME", TaxID := "800987654" }

def invoiceW8 : Invoice :=
  { ID := "inv1", CompanyID := "co", CustomerID := "cu", prefixStr := "SETP",
    Number := "990000000", Date := "2023-11-29", NetTotal := 1000000,
    TaxTotal := 190000, GrandTotal := 1190000, DIAN_Status := DIANStatusDraft,
    CUFE := "", UUID := "", XMLSigned := "", QRData := "", TrackID := "",
    DIANErrors := "", CreatedAt := 0, UpdatedAt := 0 }

def ctxW8 : dian.CufeContext :=
  { Invoice := invoiceW8, Company := companyW8, Customer := customerW8,
    ClaveTecnica := "fc8eac422eba16e22ffd8c6f94b3f40a6e38162c354673d3a603956897890cd",
    TipoAmbiente := "2" }

def resolW8 : dian.BillingResolutionData :=
  { Number := "18760000001", prefixStr := "SETP", RangeFrom := 1, RangeTo := 1000,
    DateFrom := "2023-01-01", DateTo := "2024-01-01" }

def invPostCufeW8 : Invoice :=
  { invoiceW8 with CUFE := cufeReferenceDigest, UUID := cufeReferenceDigest }

def invSignedW8 : Invoice := { invPostCufeW8 with DIAN_Status := DIANStatusSigned }

def buildCtxW8 : dian.InvoiceBuildContext :=
  { Invoice := invPostCufeW8, Company := companyW8, Customer := customerW8,
    Details := [], Resolution := some resolW8,
    CustomerIdentificationTypeCode := "31", CompanyIdentificationTypeCode := "31" }

def treeW8 : dian.XmlElem :=
  ⟨"", "Invoice", extensionsAfterInjection (some resolW8) :: dian.buildBodyChildren buildCtxW8⟩

theorem signed_invoice_structure_c8_witness :
    dian.buildAndSign ctxW8 [] (some resolW8) "31" = .ok (invSignedW8, treeW8) ∧
    invSignedW8.CUFE = invSignedW8.UUID ∧
    invSignedW8.CUFE.length = 96 ∧
    invSignedW8.DIAN_Status = DIANStatusSigned := by
  have hok : dian.buildAndSign ctxW8 [] (some resolW8) "31" = .ok (invSignedW8, treeW8) := by
    with_unfolding_all rfl
  have h := signed_invoice_structure_c8 ctxW8 [] (some resolW8) "31" invSignedW8 treeW8 hok
  exact ⟨hok, h.1, h.2.1, h.2.2.2.1⟩
